import Mathlib

/-!
Verification of the `sdfd` signed-distance-field library.

The repository contains two revisions of the single-header library:
  * `src/sdfd.hpp`        — modelled below in namespace `Sdfd.V1`
  * `src/unnamed/part_001` — modelled below in namespace `Sdfd.V2`
    (adds a scene-level non-uniform scale, an exact ellipse distance,
    and a "last primitive" policy for objects without operations).

Modelling conventions:
  * C++ `float` values are modelled as rationals (ℚ), with the
    transcendental libm routines (`sqrtf`, `acosf`, `cosf`, `sinf`,
    `powf`) abstracted into the parameter bundle `FloatOps`, since the
    claims under consideration are exact algebraic relations between
    expressions of the code itself.
  * The evaluator's value domain is `F` (finite ℚ, plus `inf`, `ninf`,
    `nan`) mirroring the IEEE values the code manufactures explicitly
    (`std::numeric_limits<float>::infinity()`, `quiet_NaN()`); the
    comparison used by `std::min`/`std::max` is modelled by `F.flt`
    exactly as IEEE `<` behaves on those values.
  * For the binary codec, a `float` is its 32-bit pattern (a `Nat`
    below `2^32`) and a file is a `List Nat` of bytes; machine
    integers are `Nat` with explicit `% 2^32` where C++ narrows.
  * The packed 32-bit `ArgumentIndex` bit-field is kept as its raw
    word (`Nat`), with per-revision accessor functions for the
    kind/value bit split (2/30 bits in V1, 1/31 bits in V2).
-/

namespace Sdfd

/-- C++ `sign` from part_001: `(x<0)?-1:1`. -/
def sign (x : ℚ) : ℚ := if x < 0 then -1 else 1

/-- C++ `sign0` from part_001: `x==0?0:(x<0)?-1:1`. -/
def sign0 (x : ℚ) : ℚ := if x = 0 then 0 else if x < 0 then -1 else 1

/-- C++ `fabsf`. -/
def fabs (x : ℚ) : ℚ := |x|

/-- The libm routines used by the code, abstracted as parameters. -/
structure FloatOps where
  sqrt : ℚ → ℚ
  acos : ℚ → ℚ
  cos : ℚ → ℚ
  sin : ℚ → ℚ
  pow : ℚ → ℚ → ℚ

/-- A concrete instantiation of `FloatOps` used by witnesses. -/
def zeroOps : FloatOps where
  sqrt := fun _ => 0
  acos := fun _ => 0
  cos := fun _ => 0
  sin := fun _ => 0
  pow := fun _ _ => 0

/-- C++ `Vector2`, generic in the scalar so the same shape serves the
evaluator (ℚ) and the codec (32-bit patterns as `Nat`). -/
structure Vec2 (α : Type) where
  x : α
  y : α
deriving DecidableEq

/-- `Vector2::yx`. -/
def Vec2.yx {α : Type} (a : Vec2 α) : Vec2 α := ⟨a.y, a.x⟩

instance : Add (Vec2 ℚ) := ⟨fun a b => ⟨a.x + b.x, a.y + b.y⟩⟩
instance : Sub (Vec2 ℚ) := ⟨fun a b => ⟨a.x - b.x, a.y - b.y⟩⟩
instance : Mul (Vec2 ℚ) := ⟨fun a b => ⟨a.x * b.x, a.y * b.y⟩⟩

/-- C++ `Vector2 operator*(float)` (componentwise scalar multiply). -/
def Vec2.muls (a : Vec2 ℚ) (b : ℚ) : Vec2 ℚ := ⟨a.x * b, a.y * b⟩

/-- C++ `abs(Vector2)`. -/
def vabs (a : Vec2 ℚ) : Vec2 ℚ := ⟨|a.x|, |a.y|⟩

/-- C++ `dot`. -/
def dot (a b : Vec2 ℚ) : ℚ := a.x * b.x + a.y * b.y

/-- C++ `length` — `sqrtf(a.x*a.x + a.y*a.y)`. -/
def length (ops : FloatOps) (a : Vec2 ℚ) : ℚ := ops.sqrt (a.x * a.x + a.y * a.y)

/-- C++ `perp` (rotate 90 degrees counterclockwise). -/
def perp (a : Vec2 ℚ) : Vec2 ℚ := ⟨-a.y, a.x⟩

/-- C++ `Plane`. -/
structure Plane (α : Type) where
  normal : Vec2 α
  offset : α
deriving DecidableEq

/-- C++ `Circle`. -/
structure Circle (α : Type) where
  center : Vec2 α
  radius : α
deriving DecidableEq

/-- C++ `Ellipse` (part_001 only). -/
structure Ellipse (α : Type) where
  center : Vec2 α
  radius : Vec2 α
deriving DecidableEq

/-- C++ `Primitive`: tagged union over float1 / plane / circle
(`SDFD_ENUMERATE_PRIMITIVE`, wire tags 0 / 4 / 5). -/
inductive Primitive (α : Type) where
  | float1 (value : α)
  | plane (pl : Plane α)
  | circle (c : Circle α)
deriving DecidableEq

/-- `Operation::Kind` (`SDFD_ENUMERATE_OPERATION`, wire tags 0 / 1 / 2,
arities 2 / 2 / 1). -/
inductive OpKind where
  | min
  | max
  | neg
deriving DecidableEq

/-- `get_arity`. -/
def get_arity : OpKind → Nat
  | .min => 2
  | .max => 2
  | .neg => 1

/-- C++ `Operation`.  Each `args[i]` is kept as the raw packed 32-bit
`ArgumentIndex` word; a default-initialized slot is the word 0. -/
structure Operation where
  kind : OpKind
  arg0 : Nat
  arg1 : Nat
deriving DecidableEq

/-- C++ `Object`. -/
structure Object (α : Type) where
  primitives : List (Primitive α)
  operations : List Operation
deriving DecidableEq

/-- C++ `Scene` of src/sdfd.hpp (no scale field; also the shape the
codec of either revision reads and writes, since part_001's serializer
neither writes nor reads its `scale` member). -/
structure Scene (α : Type) where
  objects : List (Object α)
  primitives : List (Primitive α)
deriving DecidableEq

/-- C++ `Scene` of part_001 (adds `Vector2 scale = {1, 1}`). -/
structure Scene2 (α : Type) where
  objects : List (Object α)
  primitives : List (Primitive α)
  scale : Vec2 ℚ
deriving DecidableEq

/-- Stand-in for the indeterminate `Primitive` read through an
out-of-bounds index in the C++ (undefined behaviour there; never
exercised by any theorem below). -/
def default_primitive : Primitive ℚ := .float1 0

/-- Value domain of the object evaluator: finite floats plus the IEEE
specials the code manufactures (`infinity()`, `quiet_NaN()`, and the
negative infinity obtainable by negating infinity). -/
inductive F where
  | fin (q : ℚ)
  | inf
  | ninf
  | nan
deriving DecidableEq

/-- IEEE `<` on `F`: any comparison involving NaN is false; the
finite/infinite cases are ordered as usual. -/
def F.flt : F → F → Bool
  | .fin a, .fin b => decide (a < b)
  | .fin _, .inf => true
  | .ninf, .fin _ => true
  | .ninf, .inf => true
  | _, _ => false

/-- `std::min(a, b)` = `(b < a) ? b : a`. -/
def fmin (a b : F) : F := if F.flt b a then b else a

/-- `std::max(a, b)` = `(a < b) ? b : a`. -/
def fmax (a b : F) : F := if F.flt a b then b else a

/-- Floating negation. -/
def F.fneg : F → F
  | .fin q => .fin (-q)
  | .inf => .ninf
  | .ninf => .inf
  | .nan => .nan

/-- C++ `float distance(Circle c, Vector2 p)` (part_001 line 210). -/
def distance_circle (ops : FloatOps) (c : Circle ℚ) (p : Vec2 ℚ) : ℚ :=
  length ops (p - c.center) - c.radius

/-- C++ `float distance(Ellipse e, Vector2 in_p)` (part_001 lines
213-270), the exact closed-form ellipse signed distance adapted from
Inigo Quilez, including the degenerate fallback to the circle formula
when `|ab.y² - ab.x²| < 1e-9f`. -/
def distance_ellipse (ops : FloatOps) (e : Ellipse ℚ) (in_p : Vec2 ℚ) : ℚ :=
  let ab0 := e.radius
  let p0 := vabs (in_p - e.center)
  let p := if p0.x > p0.y then p0.yx else p0
  let ab := if p0.x > p0.y then ab0.yx else ab0
  let l := ab.y * ab.y - ab.x * ab.x
  if fabs l < 1 / 1000000000 then
    distance_circle ops ⟨e.center, ab.y⟩ in_p
  else
    let m := ab.x * p.x / l
    let n := ab.y * p.y / l
    let m2 := m * m
    let n2 := n * n
    let c := (m2 + n2 - 1) / 3
    let c3 := c * c * c
    let d := c3 + m2 * n2
    let q := d + m2 * n2
    let g := m + m * n2
    let co0 :=
      if d < 0 then
        let h := ops.acos (q / c3) / 3
        let s := ops.cos h + 2
        let t := ops.sin h * ops.sqrt 3
        let rx := ops.sqrt (m2 - c * (s + t))
        let ry := ops.sqrt (m2 - c * (s - t))
        ry + sign0 l * rx + fabs g / (rx * ry)
      else
        let h := 2 * m * n * ops.sqrt d
        let s := sign (q + h) * ops.pow (fabs (q + h)) (1 / 3)
        let t := sign (q - h) * ops.pow (fabs (q - h)) (1 / 3)
        let rx := -(s + t) - c * 4 + 2 * m2
        let ry := (s - t) * ops.sqrt 3
        let rm := ops.sqrt (rx * rx + ry * ry)
        ry / ops.sqrt (rm - rx) + 2 * g / rm
    let co := (co0 - m) / 2
    let si := ops.sqrt (max (1 - co * co) 0)
    let r := ab * (⟨co, si⟩ : Vec2 ℚ)
    length ops (r - p) * sign (p.y - r.y)

namespace V1

/-- Bits 0-1 of a packed V1 `ArgumentIndex` word (`kind : 2`). -/
def arg_kind (w : Nat) : Nat := w % 4

/-- Bits 2-31 of a packed V1 `ArgumentIndex` word (`value : 30`). -/
def arg_value (w : Nat) : Nat := w / 4 % 2 ^ 30

/-- `object_primitive_index` (kind 0). -/
def object_primitive_index (i : Nat) : Nat := 0 + 4 * (i % 2 ^ 30)

/-- `scene_primitive_index` (kind 1). -/
def scene_primitive_index (i : Nat) : Nat := 1 + 4 * (i % 2 ^ 30)

/-- `object_operation_index` (kind 2). -/
def object_operation_index (i : Nat) : Nat := 2 + 4 * (i % 2 ^ 30)

/-- `float evaluate(Primitive const &primitive, Vector2 point)`
(sdfd.hpp lines 344-358). -/
def evaluate_primitive (ops : FloatOps) (primitive : Primitive ℚ) (point : Vec2 ℚ) : ℚ :=
  match primitive with
  | .float1 v => v
  | .plane pl => dot pl.normal point - pl.offset
  | .circle c => length ops (point - c.center) - c.radius

/-- The `evaluate_argument` lambda of sdfd.hpp's object evaluator.
`results` is the `operation_results` buffer at the moment of the read;
the C++ `switch` sends kind 1 to the scene pool, kind 2 to the results
buffer, and anything else (0, or the impossible 3 via `default:`) to
the object-local pool.  Out-of-bounds accesses are undefined behaviour
in the C++ and are modelled by `getD` defaults; no theorem below
exercises them. -/
def evaluate_argument (ops : FloatOps) (scene : Scene ℚ) (object : Object ℚ)
    (point : Vec2 ℚ) (results : List F) (w : Nat) : F :=
  if arg_kind w = 1 then
    .fin (evaluate_primitive ops (scene.primitives.getD (arg_value w) default_primitive) point)
  else if arg_kind w = 2 then
    results.getD (arg_value w) F.nan
  else
    .fin (evaluate_primitive ops (object.primitives.getD (arg_value w) default_primitive) point)

/-- One `switch (operation.kind)` dispatch of the evaluator loop. -/
def apply_operation (resolve : Nat → F) (op : Operation) : F :=
  match op.kind with
  | .min => fmin (resolve op.arg0) (resolve op.arg1)
  | .max => fmax (resolve op.arg0) (resolve op.arg1)
  | .neg => (resolve op.arg0).fneg

/-- The evaluator's `for` loop over `object.operations`, starting at
operation index `i` with the current `operation_results` buffer. -/
def run_operations (ops : FloatOps) (scene : Scene ℚ) (object : Object ℚ)
    (point : Vec2 ℚ) : List Operation → Nat → List F → List F
  | [], _, results => results
  | op :: rest, i, results =>
      run_operations ops scene object point rest (i + 1)
        (results.set i (apply_operation (evaluate_argument ops scene object point results) op))

/-- `float evaluate(Scene const &scene, Object const &object, Vector2 point)`
(sdfd.hpp lines 360-412): infinity when there are no operations,
otherwise run the loop over a NaN-filled buffer and return `.back()`. -/
def evaluate (ops : FloatOps) (scene : Scene ℚ) (object : Object ℚ) (point : Vec2 ℚ) : F :=
  if object.operations.length = 0 then F.inf
  else
    (run_operations ops scene object point object.operations 0
      (List.replicate object.operations.length F.nan)).getLastD F.nan

/-- The `operation_results` buffer as it stands when the loop reaches
operation index `i` (the first `i` operations have been applied). -/
def results_before (ops : FloatOps) (scene : Scene ℚ) (object : Object ℚ)
    (point : Vec2 ℚ) (i : Nat) : List F :=
  run_operations ops scene object point (object.operations.take i) 0
    (List.replicate object.operations.length F.nan)

end V1

namespace V2

/-- Bit 0 of a packed V2 `ArgumentIndex` word (`kind : 1`). -/
def arg_kind (w : Nat) : Nat := w % 2

/-- Bits 1-31 of a packed V2 `ArgumentIndex` word (`value : 31`). -/
def arg_value (w : Nat) : Nat := w / 2 % 2 ^ 31

/-- `object_primitive_index` (kind 0). -/
def object_primitive_index (i : Nat) : Nat := 0 + 2 * (i % 2 ^ 31)

/-- `object_operation_index` (kind 1). -/
def object_operation_index (i : Nat) : Nat := 1 + 2 * (i % 2 ^ 31)

/-- `float evaluate(Scene const &scene, Primitive const &primitive, Vector2 point)`
(part_001 lines 439-462).  A plane is reconstructed geometrically from
two scaled boundary points; a circle becomes an ellipse with scaled
center and radii. -/
def evaluate_primitive (ops : FloatOps) (scene : Scene2 ℚ) (primitive : Primitive ℚ)
    (point : Vec2 ℚ) : ℚ :=
  match primitive with
  | .float1 v => v
  | .plane pl =>
      let a := pl.normal.muls pl.offset
      let b := a + perp pl.normal
      let a2 := a * scene.scale
      let b2 := b * scene.scale
      let normal := perp (a2 - b2)
      let offset := dot a2 normal
      dot normal point - offset
  | .circle c =>
      distance_ellipse ops ⟨scene.scale * c.center, scene.scale.muls c.radius⟩ point

/-- The `evaluate_argument` lambda of part_001's object evaluator
(kind 1 reads the results buffer, kind 0 the object-local pool;
out-of-bounds reads are undefined behaviour, modelled by `getD` and
never exercised below). -/
def evaluate_argument (ops : FloatOps) (scene : Scene2 ℚ) (object : Object ℚ)
    (point : Vec2 ℚ) (results : List F) (w : Nat) : F :=
  if arg_kind w = 1 then
    results.getD (arg_value w) F.nan
  else
    .fin (evaluate_primitive ops scene (object.primitives.getD (arg_value w) default_primitive) point)

/-- The evaluator's `for` loop over `object.operations`. -/
def run_operations (ops : FloatOps) (scene : Scene2 ℚ) (object : Object ℚ)
    (point : Vec2 ℚ) : List Operation → Nat → List F → List F
  | [], _, results => results
  | op :: rest, i, results =>
      run_operations ops scene object point rest (i + 1)
        (results.set i (V1.apply_operation (evaluate_argument ops scene object point results) op))

/-- `float evaluate(Scene const &scene, Object const &object, Vector2 point)`
(part_001 lines 464-517): with no operations, infinity when there are
also no primitives, else the distance of the last primitive; otherwise
the same loop as V1. -/
def evaluate (ops : FloatOps) (scene : Scene2 ℚ) (object : Object ℚ) (point : Vec2 ℚ) : F :=
  if object.operations.length = 0 then
    if object.primitives.length = 0 then F.inf
    else .fin (evaluate_primitive ops scene (object.primitives.getLastD default_primitive) point)
  else
    (run_operations ops scene object point object.operations 0
      (List.replicate object.operations.length F.nan)).getLastD F.nan

end V2

/-! ## Binary codec

`serialize(bool reading, Scene &scene, char const *path)` is one
bidirectional routine (identical text in both revisions; part_001's
`scale` member is neither written nor read).  A file is a `List Nat`
of bytes; scalars are stored little-endian with no padding.  The
writer is modelled as a function returning both the bytes written and
the scene as it stands after the call, because `SERIALIZE_VECTOR`
executes `vector.resize(size)` with `uint32_t size = vector.size()` —
a narrowing conversion mod `2^32` — even in the writing direction. -/

/-- The 4 magic bytes, ASCII `"sdfd"`. -/
def magicBytes : List Nat := [115, 100, 102, 100]

/-- Little-endian bytes of a `uint16_t`. -/
def eU16 (v : Nat) : List Nat := [v % 256, v / 256 % 256]

/-- Little-endian bytes of a `uint32_t` (also of a `float`'s 32-bit
pattern, since `serialize_value` raw-copies its object representation). -/
def eU32 (v : Nat) : List Nat :=
  [v % 256, v / 256 % 256, v / 65536 % 256, v / 16777216 % 256]

/-- Wire tag of a primitive kind (`SDFD_ENUMERATE_PRIMITIVE`). -/
def primTag : Primitive Nat → Nat
  | .float1 _ => 0
  | .plane _ => 4
  | .circle _ => 5

/-- Bytes written by `serialize_primitive` for one primitive:
`kind` as u16, then exactly the payload of the active variant. -/
def ePrim : Primitive Nat → List Nat
  | .float1 v => eU16 0 ++ eU32 v
  | .plane pl => eU16 4 ++ (eU32 pl.normal.x ++ (eU32 pl.normal.y ++ eU32 pl.offset))
  | .circle c => eU16 5 ++ (eU32 c.center.x ++ (eU32 c.center.y ++ eU32 c.radius))

/-- Bytes written by `serialize_operation`: `kind` as u16, then
`get_arity(kind)` packed argument words — a `neg` writes only
`args[0]`. -/
def eOp (o : Operation) : List Nat :=
  match o.kind with
  | .min => eU16 0 ++ (eU32 o.arg0 ++ eU32 o.arg1)
  | .max => eU16 1 ++ (eU32 o.arg0 ++ eU32 o.arg1)
  | .neg => eU16 2 ++ eU32 o.arg0

/-- `std::vector::resize`: truncate, or pad with the value-initialized
default. -/
def resizeList {α : Type} (l : List α) (n : Nat) (d : α) : List α :=
  if n ≤ l.length then l.take n else l ++ List.replicate (n - l.length) d

/-- A value-initialized `Primitive` (zeroed kind tag and payload). -/
def defaultPrimN : Primitive Nat := .float1 0

/-- A value-initialized `Operation`. -/
def defaultOpN : Operation := ⟨.min, 0, 0⟩

/-- A value-initialized `Object`. -/
def defaultObjN : Object Nat := ⟨[], []⟩

/-- One writing-direction `SERIALIZE_VECTOR` block: emit
`uint32_t size = vector.size()` (narrowed mod `2^32`), resize the
vector to that size, then write each element of the resized vector.
Returns the vector as left in memory together with the bytes. -/
def writeVec {α : Type} (e : α → α × List Nat) (d : α) (v : List α) : List α × List Nat :=
  let n := v.length % 2 ^ 32
  let v2 := resizeList v n d
  let pairs := v2.map e
  (pairs.map Prod.fst, eU32 n ++ (pairs.map Prod.snd).flatten)

/-- Writing one primitive mutates nothing. -/
def writePrim (p : Primitive Nat) : Primitive Nat × List Nat := (p, ePrim p)

/-- Writing one operation mutates nothing. -/
def writeOp (o : Operation) : Operation × List Nat := (o, eOp o)

/-- Writing one object: its primitive vector block, then its operation
vector block. -/
def writeObject (o : Object Nat) : Object Nat × List Nat :=
  let rp := writeVec writePrim defaultPrimN o.primitives
  let ro := writeVec writeOp defaultOpN o.operations
  (⟨rp.1, ro.1⟩, rp.2 ++ ro.2)

/-- The writing direction of `serialize`: magic, version
(`SDFD_VERSION = 0`), the object vector, the scene-shared primitive
vector.  `fwrite` is assumed to succeed (disk errors are outside the
model). -/
def writeScene (s : Scene Nat) : Scene Nat × List Nat :=
  let ro := writeVec writeObject defaultObjN s.objects
  let rp := writeVec writePrim defaultPrimN s.primitives
  (⟨ro.1, rp.1⟩, magicBytes ++ (eU16 0 ++ (ro.2 ++ rp.2)))

/-- Result of `store_to_file`: the returned flag, the scene as left in
memory (the `const_cast` makes the caller's scene the one the routine
mutates), and the bytes now in the file. -/
structure StoreResult where
  scene : Scene Nat
  ok : Bool
  file : List Nat
deriving DecidableEq

/-- `bool store_to_file(Scene const &scene, char const *path)`.
`canOpen` models whether `fopen(path, "wb")` succeeds; on failure the
routine returns false before touching the scene or the file. -/
def store_to_file (canOpen : Bool) (s : Scene Nat) : StoreResult :=
  if canOpen then
    let r := writeScene s
    ⟨r.1, true, r.2⟩
  else ⟨s, false, []⟩

/-- A parser consuming bytes from the front of the buffer, mirroring
the `cursor`/`end` pair of the reading direction: `none` is the
`cursor + size > end` early return. -/
def P (α : Type) : Type := List Nat → Option (α × List Nat)

/-- Sequencing of reads: exactly the C++ pattern "if this read failed,
return false; otherwise continue at the advanced cursor". -/
def pbind {α β : Type} (p : P α) (q : α → P β) : P β := fun l =>
  match p l with
  | none => none
  | some x => q x.1 x.2

/-- A successful return that consumes nothing. -/
def ppure {α : Type} (a : α) : P α := fun l => some (a, l)

/-- An early `return false`. -/
def pfail {α : Type} : P α := fun _ => none

/-- `serialize_buffer` reading `n` raw bytes. -/
def pBytes (n : Nat) : P (List Nat) := fun l =>
  if n ≤ l.length then some (l.take n, l.drop n) else none

/-- Read a `uint16_t` (2 bytes, little-endian). -/
def pU16 : P Nat
  | b0 :: b1 :: r => some (b0 + 256 * b1, r)
  | _ => none

/-- Read a `uint32_t` (4 bytes, little-endian). -/
def pU32 : P Nat
  | b0 :: b1 :: b2 :: b3 :: r => some (b0 + 256 * (b1 + 256 * (b2 + 256 * b3)), r)
  | _ => none

/-- The reading direction of `serialize_primitive`: tag, then the
payload selected by the tag.  On a tag outside the enumeration the C++
`switch` falls through and keeps the primitive's indeterminate payload;
that is modelled as a parse failure here (such a tag is never produced
by `writeScene`, and no theorem depends on this path). -/
def pPrim : P (Primitive Nat) :=
  pbind pU16 fun tag =>
    match tag with
    | 0 => pbind pU32 fun v => ppure (.float1 v)
    | 4 =>
      pbind pU32 fun nx => pbind pU32 fun ny => pbind pU32 fun o =>
        ppure (.plane ⟨⟨nx, ny⟩, o⟩)
    | 5 =>
      pbind pU32 fun cx => pbind pU32 fun cy => pbind pU32 fun rad =>
        ppure (.circle ⟨⟨cx, cy⟩, rad⟩)
    | _ => pfail

/-- The reading direction of `serialize_operation`: tag, then
`get_arity(tag)` argument words into a default-initialized `Operation`
(so a `neg` leaves `args[1]` as the zero word).  A tag outside the
enumeration asserts in `get_arity`; modelled as failure, never produced
by `writeScene`. -/
def pOp : P Operation :=
  pbind pU16 fun tag =>
    match tag with
    | 0 => pbind pU32 fun a0 => pbind pU32 fun a1 => ppure ⟨.min, a0, a1⟩
    | 1 => pbind pU32 fun a0 => pbind pU32 fun a1 => ppure ⟨.max, a0, a1⟩
    | 2 => pbind pU32 fun a0 => ppure ⟨.neg, a0, 0⟩
    | _ => pfail

/-- Read `n` records in sequence. -/
def pList {α : Type} (p : P α) : Nat → P (List α)
  | 0 => ppure []
  | n + 1 => pbind p fun a => pbind (pList p n) fun as => ppure (a :: as)

/-- One reading-direction `SERIALIZE_VECTOR` block: read the u32
count, resize (build) the vector, read each element. -/
def pVec {α : Type} (p : P α) : P (List α) :=
  pbind pU32 fun n => pList p n

/-- Read one object: primitive vector block, then operation vector
block. -/
def pObject : P (Object Nat) :=
  pbind (pVec pPrim) fun ps => pbind (pVec pOp) fun os => ppure ⟨ps, os⟩

/-- The reading direction of `serialize`: 4 magic bytes compared to
`"sdfd"`, u16 version rejected above `SDFD_VERSION = 0`, the object
vector, the scene-shared primitive vector.  Trailing bytes are ignored,
exactly as the C++ returns `true` without checking `cursor == end`. -/
def pScene : P (Scene Nat) :=
  pbind (pBytes 4) fun m =>
    if m = magicBytes then
      pbind pU16 fun v =>
        if 0 < v then pfail
        else
          pbind (pVec pObject) fun objs =>
            pbind (pVec pPrim) fun prims => ppure ⟨objs, prims⟩
    else pfail

/-- `std::optional<Scene> load_from_file(char const *path)` applied to
the bytes of the file: `nullopt` whenever `serialize` returned false
(the emplaced scene is reset, so no partial scene escapes). -/
def load_from_file (l : List Nat) : Option (Scene Nat) :=
  match pScene l with
  | none => none
  | some (s, _) => some s

/-! ### In-memory well-formedness

These predicates describe scenes realizable in the C++ data model as
built by the public constructors: every float payload is a 32-bit
pattern, every packed argument word fits in 32 bits, the unused second
argument slot of a unary `neg` operation is the default-initialized
zero word (aggregate construction zero-initializes it), and every
vector is short enough that the `uint32_t` element counts of the wire
format are not narrowed. -/

/-- Payloads are 32-bit patterns. -/
def WFPrim : Primitive Nat → Prop
  | .float1 v => v < 2 ^ 32
  | .plane pl => pl.normal.x < 2 ^ 32 ∧ pl.normal.y < 2 ^ 32 ∧ pl.offset < 2 ^ 32
  | .circle c => c.center.x < 2 ^ 32 ∧ c.center.y < 2 ^ 32 ∧ c.radius < 2 ^ 32

instance : DecidablePred WFPrim := fun p => by
  unfold WFPrim; cases p <;> infer_instance

/-- Argument words are 32-bit; a `neg` keeps its unused slot zeroed. -/
def WFOp (o : Operation) : Prop :=
  o.arg0 < 2 ^ 32 ∧ o.arg1 < 2 ^ 32 ∧ (o.kind = .neg → o.arg1 = 0)

instance : DecidablePred WFOp := fun o => by
  unfold WFOp; infer_instance

/-- Vectors below the u32 narrowing bound, all members well-formed. -/
def WFObject (o : Object Nat) : Prop :=
  o.primitives.length < 2 ^ 32 ∧ o.operations.length < 2 ^ 32 ∧
    (∀ p ∈ o.primitives, WFPrim p) ∧ (∀ op ∈ o.operations, WFOp op)

instance : DecidablePred WFObject := fun o => by
  unfold WFObject; infer_instance

/-- Well-formed scene. -/
def WFScene (s : Scene Nat) : Prop :=
  s.objects.length < 2 ^ 32 ∧ s.primitives.length < 2 ^ 32 ∧
    (∀ o ∈ s.objects, WFObject o) ∧ (∀ p ∈ s.primitives, WFPrim p)

instance : DecidablePred WFScene := fun s => by
  unfold WFScene; infer_instance

/-- A representative scene built the way `example/main.cpp` builds one:
an object holding planes, a circle and a constant combined by
max/neg/min operations (packed V1 argument words), plus a scene-shared
primitive.  Float payloads are arbitrary 32-bit patterns. -/
def exampleScene : Scene Nat :=
  { objects :=
      [{ primitives :=
           [.plane ⟨⟨3212836864, 0⟩, 1098907648⟩,
            .circle ⟨⟨1107296256, 1107296256⟩, 1094713344⟩,
            .float1 42],
         operations :=
           [⟨.max, 0, 4⟩, ⟨.neg, 8, 0⟩, ⟨.min, 2, 6⟩] },
       { primitives := [], operations := [] }],
    primitives := [.float1 7] }

/-- A scene whose object vector has exactly `2^32` elements: the
`uint32_t size = vector.size()` narrowing in `SERIALIZE_VECTOR` makes
the writing direction resize it to zero. -/
def hugeScene : Scene Nat := ⟨List.replicate (2 ^ 32) defaultObjN, []⟩

/-- Wire bytes of one object when no narrowing occurs. -/
def eObject (o : Object Nat) : List Nat :=
  (eU32 o.primitives.length ++ (o.primitives.map ePrim).flatten) ++
    ((eU32 o.operations.length ++ (o.operations.map eOp).flatten) ++ [])

/-- Wire bytes of a whole scene when no narrowing occurs. -/
def eScene (s : Scene Nat) : List Nat :=
  magicBytes ++
    (eU16 0 ++
      ((eU32 s.objects.length ++ (s.objects.map eObject).flatten) ++
        ((eU32 s.primitives.length ++ (s.primitives.map ePrim).flatten) ++ [])))

/-! ### Codec lemmas -/

theorem fmin_fin (a b : ℚ) : fmin (.fin a) (.fin b) = .fin (min a b) := by
  rcases lt_or_le b a with h | h
  · simp [fmin, F.flt, h, min_eq_right h.le]
  · simp [fmin, F.flt, not_lt.mpr h, min_eq_left h]

theorem fmax_fin (a b : ℚ) : fmax (.fin a) (.fin b) = .fin (max a b) := by
  rcases lt_or_le a b with h | h
  · simp [fmax, F.flt, h, max_eq_right h.le]
  · simp [fmax, F.flt, not_lt.mpr h, max_eq_left h]


theorem pbind_rt {α β : Type} {p : P α} {q : α → P β} {c1 c2 c : List Nat} {a : α} {b : β}
    (h1 : ∀ r, p (c1 ++ r) = some (a, r))
    (h2 : ∀ r, q a (c2 ++ r) = some (b, r))
    (hc : c = c1 ++ c2) :
    ∀ r, pbind p q (c ++ r) = some (b, r) := by
  subst hc
  intro r
  unfold pbind
  rw [List.append_assoc, h1]
  exact h2 r

theorem ppure_rt {α : Type} (a : α) : ∀ r, ppure a ([] ++ r) = some (a, r) := by
  intro r
  simp [ppure]

theorem ppure_short {α : Type} (a : α) :
    ∀ k, k < ([] : List Nat).length → ppure a (([] : List Nat).take k) = none := by
  intro k hk
  simp at hk

theorem pbind_short {α β : Type} {p : P α} {q : α → P β} {c1 c2 c : List Nat} {a : α}
    (h1 : ∀ r, p (c1 ++ r) = some (a, r))
    (h1s : ∀ k, k < c1.length → p (c1.take k) = none)
    (h2s : ∀ k, k < c2.length → q a (c2.take k) = none)
    (hc : c = c1 ++ c2) :
    ∀ k, k < c.length → pbind p q (c.take k) = none := by
  subst hc
  intro k hk
  rw [List.take_append_eq_append_take]
  by_cases h : k < c1.length
  · have h0 : k - c1.length = 0 := by omega
    rw [h0, List.take_zero, List.append_nil]
    unfold pbind
    rw [h1s k h]
  · push_neg at h
    rw [List.take_of_length_le h]
    unfold pbind
    rw [h1]
    apply h2s
    rw [List.length_append] at hk
    omega

theorem pU16_rt (v : Nat) (hv : v < 2 ^ 16) : ∀ r, pU16 (eU16 v ++ r) = some (v, r) := by
  intro r
  show some (v % 256 + 256 * (v / 256 % 256), r) = some (v, r)
  have h : v % 256 + 256 * (v / 256 % 256) = v := by omega
  rw [h]

theorem pU16_none {l : List Nat} (h : l.length < 2) : pU16 l = none := by
  match l with
  | [] => rfl
  | [_] => rfl
  | _ :: _ :: _ => exact absurd h (by simp)

theorem pU16_short {c : List Nat} : ∀ k, k < 2 → pU16 (c.take k) = none := by
  intro k hk
  exact pU16_none (by rw [List.length_take]; omega)

theorem pU32_rt (v : Nat) (hv : v < 2 ^ 32) : ∀ r, pU32 (eU32 v ++ r) = some (v, r) := by
  intro r
  show some (v % 256 + 256 * (v / 256 % 256 + 256 * (v / 65536 % 256 + 256 * (v / 16777216 % 256))), r) = some (v, r)
  have h : v % 256 + 256 * (v / 256 % 256 + 256 * (v / 65536 % 256 + 256 * (v / 16777216 % 256))) = v := by
    omega
  rw [h]

theorem pU32_none {l : List Nat} (h : l.length < 4) : pU32 l = none := by
  match l with
  | [] => rfl
  | [_] => rfl
  | [_, _] => rfl
  | [_, _, _] => rfl
  | _ :: _ :: _ :: _ :: _ => exact absurd h (by simp)

theorem pU32_short {c : List Nat} : ∀ k, k < 4 → pU32 (c.take k) = none := by
  intro k hk
  exact pU32_none (by rw [List.length_take]; omega)

theorem pBytes_rt {n : Nat} (c : List Nat) (hn : c.length = n) :
    ∀ r, pBytes n (c ++ r) = some (c, r) := by
  intro r
  subst hn
  unfold pBytes
  rw [if_pos (by rw [List.length_append]; omega), List.take_left, List.drop_left]

theorem pBytes_none {n : Nat} {l : List Nat} (h : l.length < n) : pBytes n l = none := by
  unfold pBytes
  rw [if_neg (by omega)]

theorem pBytes_short {n : Nat} (c : List Nat) (hn : c.length = n) :
    ∀ k, k < c.length → pBytes n (c.take k) = none := by
  intro k hk
  exact pBytes_none (by rw [List.length_take]; omega)

theorem pPrim_rt {p : Primitive Nat} (h : WFPrim p) :
    ∀ r, pPrim (ePrim p ++ r) = some (p, r) := by
  match p with
  | .float1 v =>
    refine pbind_rt (pU16_rt 0 (by norm_num)) ?_ rfl
    exact pbind_rt (pU32_rt v h) (ppure_rt _) (List.append_nil _).symm
  | .plane pl =>
    obtain ⟨h1, h2, h3⟩ := h
    refine pbind_rt (pU16_rt 4 (by norm_num)) ?_ rfl
    refine pbind_rt (pU32_rt _ h1) ?_ rfl
    refine pbind_rt (pU32_rt _ h2) ?_ rfl
    exact pbind_rt (pU32_rt _ h3) (ppure_rt _) (List.append_nil _).symm
  | .circle c =>
    obtain ⟨h1, h2, h3⟩ := h
    refine pbind_rt (pU16_rt 5 (by norm_num)) ?_ rfl
    refine pbind_rt (pU32_rt _ h1) ?_ rfl
    refine pbind_rt (pU32_rt _ h2) ?_ rfl
    exact pbind_rt (pU32_rt _ h3) (ppure_rt _) (List.append_nil _).symm

theorem pPrim_short {p : Primitive Nat} (h : WFPrim p) :
    ∀ k, k < (ePrim p).length → pPrim ((ePrim p).take k) = none := by
  match p with
  | .float1 v =>
    refine pbind_short (pU16_rt 0 (by norm_num)) pU16_short ?_ rfl
    exact pbind_short (pU32_rt _ h) pU32_short (ppure_short _) (List.append_nil _).symm
  | .plane pl =>
    obtain ⟨h1, h2, h3⟩ := h
    refine pbind_short (pU16_rt 4 (by norm_num)) pU16_short ?_ rfl
    refine pbind_short (pU32_rt _ h1) pU32_short ?_ rfl
    refine pbind_short (pU32_rt _ h2) pU32_short ?_ rfl
    exact pbind_short (pU32_rt _ h3) pU32_short (ppure_short _) (List.append_nil _).symm
  | .circle c =>
    obtain ⟨h1, h2, h3⟩ := h
    refine pbind_short (pU16_rt 5 (by norm_num)) pU16_short ?_ rfl
    refine pbind_short (pU32_rt _ h1) pU32_short ?_ rfl
    refine pbind_short (pU32_rt _ h2) pU32_short ?_ rfl
    exact pbind_short (pU32_rt _ h3) pU32_short (ppure_short _) (List.append_nil _).symm

theorem pOp_rt {o : Operation} (h : WFOp o) : ∀ r, pOp (eOp o ++ r) = some (o, r) := by
  obtain ⟨k, a0, a1⟩ := o
  obtain ⟨h1, h2, h3⟩ := h
  match k with
  | .min =>
    refine pbind_rt (pU16_rt 0 (by norm_num)) ?_ rfl
    refine pbind_rt (pU32_rt _ h1) ?_ rfl
    exact pbind_rt (pU32_rt _ h2) (ppure_rt _) (List.append_nil _).symm
  | .max =>
    refine pbind_rt (pU16_rt 1 (by norm_num)) ?_ rfl
    refine pbind_rt (pU32_rt _ h1) ?_ rfl
    exact pbind_rt (pU32_rt _ h2) (ppure_rt _) (List.append_nil _).symm
  | .neg =>
    have h0 : a1 = 0 := h3 rfl
    subst h0
    refine pbind_rt (pU16_rt 2 (by norm_num)) ?_ rfl
    exact pbind_rt (pU32_rt _ h1) (ppure_rt _) (List.append_nil _).symm

theorem pOp_short {o : Operation} (h : WFOp o) :
    ∀ k, k < (eOp o).length → pOp ((eOp o).take k) = none := by
  obtain ⟨k, a0, a1⟩ := o
  obtain ⟨h1, h2, _⟩ := h
  match k with
  | .min =>
    refine pbind_short (pU16_rt 0 (by norm_num)) pU16_short ?_ rfl
    refine pbind_short (pU32_rt _ h1) pU32_short ?_ rfl
    exact pbind_short (pU32_rt _ h2) pU32_short (ppure_short _) (List.append_nil _).symm
  | .max =>
    refine pbind_short (pU16_rt 1 (by norm_num)) pU16_short ?_ rfl
    refine pbind_short (pU32_rt _ h1) pU32_short ?_ rfl
    exact pbind_short (pU32_rt _ h2) pU32_short (ppure_short _) (List.append_nil _).symm
  | .neg =>
    refine pbind_short (pU16_rt 2 (by norm_num)) pU16_short ?_ rfl
    exact pbind_short (pU32_rt _ h1) pU32_short (ppure_short _) (List.append_nil _).symm

theorem pList_rt {α : Type} {p : P α} {e : α → List Nat} {l : List α}
    (h : ∀ a ∈ l, ∀ r, p (e a ++ r) = some (a, r)) :
    ∀ r, pList p l.length ((l.map e).flatten ++ r) = some (l, r) := by
  induction l with
  | nil =>
    intro r
    simp [pList, ppure]
  | cons a as ih =>
    refine pbind_rt (h a (by simp)) ?_ rfl
    exact pbind_rt (ih (fun x hx => h x (by simp [hx]))) (ppure_rt _) (List.append_nil _).symm

theorem pList_short {α : Type} {p : P α} {e : α → List Nat} {l : List α}
    (hrt : ∀ a ∈ l, ∀ r, p (e a ++ r) = some (a, r))
    (hsh : ∀ a ∈ l, ∀ k, k < (e a).length → p ((e a).take k) = none) :
    ∀ k, k < ((l.map e).flatten).length → pList p l.length (((l.map e).flatten).take k) = none := by
  induction l with
  | nil =>
    intro k hk
    simp at hk
  | cons a as ih =>
    refine pbind_short (hrt a (by simp)) (hsh a (by simp)) ?_ rfl
    exact pbind_short (pList_rt (fun x hx => hrt x (by simp [hx])))
      (ih (fun x hx => hrt x (by simp [hx])) (fun x hx => hsh x (by simp [hx])))
      (ppure_short _) (List.append_nil _).symm

theorem pVec_rt {α : Type} {p : P α} {e : α → List Nat} {l : List α}
    (hlen : l.length < 2 ^ 32)
    (h : ∀ a ∈ l, ∀ r, p (e a ++ r) = some (a, r)) :
    ∀ r, pVec p ((eU32 l.length ++ (l.map e).flatten) ++ r) = some (l, r) :=
  pbind_rt (pU32_rt _ hlen) (pList_rt h) rfl

theorem pVec_short {α : Type} {p : P α} {e : α → List Nat} {l : List α}
    (hlen : l.length < 2 ^ 32)
    (hrt : ∀ a ∈ l, ∀ r, p (e a ++ r) = some (a, r))
    (hsh : ∀ a ∈ l, ∀ k, k < (e a).length → p ((e a).take k) = none) :
    ∀ k, k < (eU32 l.length ++ (l.map e).flatten).length →
      pVec p ((eU32 l.length ++ (l.map e).flatten).take k) = none :=
  pbind_short (pU32_rt _ hlen) pU32_short (pList_short hrt hsh) rfl

theorem pObject_rt {o : Object Nat} (h : WFObject o) :
    ∀ r, pObject (eObject o ++ r) = some (o, r) := by
  obtain ⟨ps, os⟩ := o
  obtain ⟨h1, h2, h3, h4⟩ := h
  refine pbind_rt (pVec_rt h1 (fun x hx => pPrim_rt (h3 x hx))) ?_ rfl
  refine pbind_rt (pVec_rt h2 (fun x hx => pOp_rt (h4 x hx))) (ppure_rt _) rfl

theorem pObject_short {o : Object Nat} (h : WFObject o) :
    ∀ k, k < (eObject o).length → pObject ((eObject o).take k) = none := by
  obtain ⟨ps, os⟩ := o
  obtain ⟨h1, h2, h3, h4⟩ := h
  refine pbind_short (pVec_rt h1 (fun x hx => pPrim_rt (h3 x hx)))
    (pVec_short h1 (fun x hx => pPrim_rt (h3 x hx)) (fun x hx => pPrim_short (h3 x hx))) ?_ rfl
  refine pbind_short (pVec_rt h2 (fun x hx => pOp_rt (h4 x hx)))
    (pVec_short h2 (fun x hx => pOp_rt (h4 x hx)) (fun x hx => pOp_short (h4 x hx)))
    (ppure_short _) rfl

theorem pScene_rt {s : Scene Nat} (h : WFScene s) :
    ∀ r, pScene (eScene s ++ r) = some (s, r) := by
  obtain ⟨objs, prims⟩ := s
  obtain ⟨h1, h2, h3, h4⟩ := h
  refine pbind_rt (pBytes_rt magicBytes rfl) ?_ rfl
  simp only [reduceIte]
  refine pbind_rt (pU16_rt 0 (by norm_num)) ?_ rfl
  intro r
  beta_reduce
  rw [if_neg (show ¬(0 : Nat) < 0 from by omega)]
  refine pbind_rt (pVec_rt h1 (fun x hx => pObject_rt (h3 x hx))) ?_ rfl r
  exact pbind_rt (pVec_rt h2 (fun x hx => pPrim_rt (h4 x hx))) (ppure_rt _) rfl

theorem pScene_short {s : Scene Nat} (h : WFScene s) :
    ∀ k, k < (eScene s).length → pScene ((eScene s).take k) = none := by
  obtain ⟨objs, prims⟩ := s
  obtain ⟨h1, h2, h3, h4⟩ := h
  refine pbind_short (pBytes_rt magicBytes rfl) (pBytes_short magicBytes rfl) ?_ rfl
  simp only [reduceIte]
  refine pbind_short (pU16_rt 0 (by norm_num)) pU16_short ?_ rfl
  intro k hk
  beta_reduce
  rw [if_neg (show ¬(0 : Nat) < 0 from by omega)]
  refine pbind_short (pVec_rt h1 (fun x hx => pObject_rt (h3 x hx)))
    (pVec_short h1 (fun x hx => pObject_rt (h3 x hx)) (fun x hx => pObject_short (h3 x hx)))
    ?_ rfl k hk
  exact pbind_short (pVec_rt h2 (fun x hx => pPrim_rt (h4 x hx)))
    (pVec_short h2 (fun x hx => pPrim_rt (h4 x hx)) (fun x hx => pPrim_short (h4 x hx)))
    (ppure_short _) rfl

theorem writeVec_eq {α : Type} (e : α → α × List Nat) (d : α) (v : List α)
    (hlen : v.length < 2 ^ 32) (hid : ∀ a ∈ v, (e a).1 = a) :
    writeVec e d v = (v, eU32 v.length ++ (v.map (fun a => (e a).2)).flatten) := by
  have hres : resizeList v v.length d = v := by
    unfold resizeList
    rw [if_pos (Nat.le_refl _), List.take_length]
  have hfst : (v.map e).map Prod.fst = v := by
    rw [List.map_map]
    have h1 : v.map (Prod.fst ∘ e) = v.map id := List.map_congr_left (fun a ha => hid a ha)
    rw [h1, List.map_id]
  have hsnd : (v.map e).map Prod.snd = v.map (fun a => (e a).2) := by
    rw [List.map_map]
    rfl
  simp only [writeVec, Nat.mod_eq_of_lt hlen, hres, hfst, hsnd]

theorem writeObject_fst {o : Object Nat} (hp : o.primitives.length < 2 ^ 32)
    (ho : o.operations.length < 2 ^ 32) : (writeObject o).1 = o := by
  obtain ⟨ps, os⟩ := o
  simp only [writeObject, writeVec_eq writePrim defaultPrimN ps hp (fun a _ => rfl),
    writeVec_eq writeOp defaultOpN os ho (fun a _ => rfl)]

theorem writeObject_eq {o : Object Nat} (h : WFObject o) : writeObject o = (o, eObject o) := by
  obtain ⟨ps, os⟩ := o
  obtain ⟨h1, h2, _, _⟩ := h
  simp only [writeObject, writeVec_eq writePrim defaultPrimN ps h1 (fun a _ => rfl),
    writeVec_eq writeOp defaultOpN os h2 (fun a _ => rfl), eObject]
  simp [writePrim, writeOp]

theorem writeScene_eq {s : Scene Nat} (h : WFScene s) : writeScene s = (s, eScene s) := by
  obtain ⟨objs, prims⟩ := s
  obtain ⟨h1, h2, h3, h4⟩ := h
  have hobj : ∀ o ∈ objs, (writeObject o).1 = o := fun o ho => by
    rw [writeObject_eq (h3 o ho)]
  have hosnd : objs.map (fun o => (writeObject o).2) = objs.map eObject :=
    List.map_congr_left (fun o ho => by rw [writeObject_eq (h3 o ho)])
  simp only [writeScene, writeVec_eq writeObject defaultObjN objs h1 hobj,
    writeVec_eq writePrim defaultPrimN prims h2 (fun a _ => rfl), eScene, hosnd]
  simp [writePrim]

/-! ### Claim theorems for the codec -/

/-- Claim C1 (amended with the `2^32` bound): storing a well-formed
scene with `store_to_file` succeeds, and loading the written bytes
with `load_from_file` yields a scene equal field-by-field (structure,
counts, order, tags, packed argument words, and float payloads
bit-for-bit) to the original. -/
theorem claim_C1_round_trip (s : Scene Nat) (h : WFScene s) :
    (store_to_file true s).ok = true ∧
    load_from_file (store_to_file true s).file = some s := by
  constructor
  · simp [store_to_file]
  · have hfile : (store_to_file true s).file = eScene s := by
      simp [store_to_file, writeScene_eq h]
    rw [hfile]
    unfold load_from_file
    have hp := pScene_rt h []
    rw [List.append_nil] at hp
    rw [hp]

/-- Concrete round trip through the codec for `exampleScene`. -/
theorem claim_C1_round_trip_witness :
    WFScene exampleScene ∧
    ((store_to_file true exampleScene).ok = true ∧
      load_from_file (store_to_file true exampleScene).file = some exampleScene) :=
  ⟨by decide, claim_C1_round_trip exampleScene (by decide)⟩

/-- A vector whose length is a multiple of `2^32` is resized to empty
by the writing direction of `SERIALIZE_VECTOR`. -/
theorem writeVec_trunc {α : Type} (e : α → α × List Nat) (d : α) (v : List α)
    (hv : v.length % 2 ^ 32 = 0) :
    writeVec e d v = ([], eU32 0 ++ []) := by
  simp only [writeVec, hv, resizeList]
  rw [if_pos (Nat.zero_le _)]
  simp only [List.take_zero, List.map_nil, List.flatten_nil]

theorem hugeScene_objects_len : hugeScene.objects.length = 2 ^ 32 := by
  rw [show hugeScene.objects = List.replicate (2 ^ 32) defaultObjN from rfl,
    List.length_replicate]

theorem hugeScene_objects_mod : hugeScene.objects.length % 2 ^ 32 = 0 := by
  rw [hugeScene_objects_len, Nat.mod_self]

theorem store_huge : store_to_file true hugeScene =
    ⟨⟨[], []⟩, true, magicBytes ++ (eU16 0 ++ ((eU32 0 ++ []) ++ (eU32 0 ++ [])))⟩ := by
  have h1 : writeVec writeObject defaultObjN hugeScene.objects = ([], eU32 0 ++ []) :=
    writeVec_trunc _ _ _ hugeScene_objects_mod
  have h2 : writeVec writePrim defaultPrimN hugeScene.primitives = ([], eU32 0 ++ []) := rfl
  simp only [store_to_file, reduceIte, writeScene, h1, h2]

theorem hugeScene_objects_ne_nil : ([] : List (Object Nat)) ≠ hugeScene.objects := by
  intro h
  have h3 := congrArg List.length h
  rw [hugeScene_objects_len, List.length_nil] at h3
  exact absurd h3 (by norm_num)

/-- Claim C1 as frozen is false on the code: a scene whose object
vector has `2^32` elements is silently truncated to an empty one by the
`uint32_t` narrowing in `SERIALIZE_VECTOR`, so the loaded scene is not
field-by-field equal to the original. -/
theorem claim_C1_counterexample :
    load_from_file (store_to_file true hugeScene).file ≠ some hugeScene := by
  rw [show (store_to_file true hugeScene).file =
      magicBytes ++ (eU16 0 ++ ((eU32 0 ++ []) ++ (eU32 0 ++ [])))
    from congrArg StoreResult.file store_huge]
  intro hcontra
  have hload : load_from_file (magicBytes ++ (eU16 0 ++ ((eU32 0 ++ []) ++ (eU32 0 ++ [])))) =
      some (⟨[], []⟩ : Scene Nat) := by decide
  rw [hload, Option.some_inj] at hcontra
  exact hugeScene_objects_ne_nil (congrArg Scene.objects hcontra)

/-- Claim C8: `load_from_file` returns the no-scene failure value on a
wrong magic, on a version above the supported one, and on every strict
byte-level truncation of a valid file. -/
theorem claim_C8_load_rejects :
    (∀ l : List Nat, 4 ≤ l.length → l.take 4 ≠ magicBytes → load_from_file l = none) ∧
    (∀ v rest, 0 < v → v < 2 ^ 16 →
      load_from_file (magicBytes ++ (eU16 v ++ rest)) = none) ∧
    (∀ s : Scene Nat, WFScene s → ∀ k, k < (store_to_file true s).file.length →
      load_from_file ((store_to_file true s).file.take k) = none) := by
  refine ⟨?_, ?_, ?_⟩
  · intro l h4 hmag
    simp [load_from_file, pScene, pbind, pBytes, h4, hmag, pfail]
  · intro v rest hpos hlt
    have h1 : pBytes 4 (magicBytes ++ (eU16 v ++ rest)) = some (magicBytes, eU16 v ++ rest) :=
      pBytes_rt magicBytes rfl _
    have h2 : pU16 (eU16 v ++ rest) = some (v, rest) := pU16_rt v hlt rest
    simp [load_from_file, pScene, pbind, h1, h2, hpos, pfail]
  · intro s hs k hk
    have hfile : (store_to_file true s).file = eScene s := by
      simp [store_to_file, writeScene_eq hs]
    rw [hfile] at hk ⊢
    have hp := pScene_short hs k hk
    simp [load_from_file, hp]

/-- Concrete rejections: wrong magic, version 1 on a version-0 reader,
and a truncation of a valid file. -/
theorem claim_C8_load_rejects_witness :
    (load_from_file [9, 9, 9, 9] = none) ∧
    (load_from_file (magicBytes ++ (eU16 1 ++ [])) = none) ∧
    (load_from_file ((store_to_file true exampleScene).file.take 7) = none) :=
  ⟨claim_C8_load_rejects.1 [9, 9, 9, 9] (by decide) (by decide),
   claim_C8_load_rejects.2.1 1 [] (by decide) (by decide),
   claim_C8_load_rejects.2.2 exampleScene (by decide) 7 (by decide)⟩

/-- Claim C10 (amended with the `2^32` bound): `store_to_file` leaves
the scene it was given unchanged, whether or not the file could be
opened, provided every vector in the scene has fewer than `2^32`
elements. -/
theorem claim_C10_store_preserves (canOpen : Bool) (s : Scene Nat)
    (h1 : s.objects.length < 2 ^ 32)
    (h2 : s.primitives.length < 2 ^ 32)
    (h3 : ∀ o ∈ s.objects, o.primitives.length < 2 ^ 32 ∧ o.operations.length < 2 ^ 32) :
    (store_to_file canOpen s).scene = s := by
  cases canOpen
  · simp [store_to_file]
  · obtain ⟨objs, prims⟩ := s
    simp only [store_to_file, if_pos]
    show (⟨(writeScene ⟨objs, prims⟩).1, true, (writeScene ⟨objs, prims⟩).2⟩ : StoreResult).scene = _
    simp only [writeScene,
      writeVec_eq writeObject defaultObjN objs h1
        (fun o ho => writeObject_fst (h3 o ho).1 (h3 o ho).2),
      writeVec_eq writePrim defaultPrimN prims h2 (fun a _ => rfl)]

/-- `store_to_file` on a concrete scene returns it untouched. -/
theorem claim_C10_store_preserves_witness :
    (store_to_file true exampleScene).scene = exampleScene :=
  claim_C10_store_preserves true exampleScene (by decide) (by decide) (by decide)

/-- Claim C10 as frozen is false on the code: writing a scene whose
object vector has `2^32` elements resizes that vector to zero in
place, so the caller's scene is observably mutated. -/
theorem claim_C10_counterexample :
    (store_to_file true hugeScene).scene ≠ hugeScene := by
  rw [show (store_to_file true hugeScene).scene = (⟨[], []⟩ : Scene Nat)
    from congrArg StoreResult.scene store_huge]
  intro hcontra
  exact hugeScene_objects_ne_nil (congrArg Scene.objects hcontra)

/-! ### Evaluator loop lemmas (V1) -/

namespace V1

/-- The loop starting at index `i` never touches buffer entries outside
`[i, i + number of remaining operations)`. -/
theorem run_operations_outside (ops : FloatOps) (scene : Scene ℚ) (object : Object ℚ)
    (point : Vec2 ℚ) :
    ∀ (l : List Operation) (i j : Nat) (buf : List F),
      (j < i ∨ i + l.length ≤ j) →
      (run_operations ops scene object point l i buf)[j]? = buf[j]? := by
  intro l
  induction l with
  | nil =>
    intro i j buf _
    rfl
  | cons op rest ih =>
    intro i j buf hj
    rw [List.length_cons] at hj
    have hj2 : j < i + 1 ∨ i + 1 + rest.length ≤ j := by omega
    have hne : i ≠ j := by omega
    show (run_operations ops scene object point rest (i + 1) _)[j]? = _
    rw [ih (i + 1) j _ hj2]
    exact List.getElem?_set_ne hne

theorem run_operations_append (ops : FloatOps) (scene : Scene ℚ) (object : Object ℚ)
    (point : Vec2 ℚ) :
    ∀ (l1 l2 : List Operation) (i : Nat) (buf : List F),
      run_operations ops scene object point (l1 ++ l2) i buf =
        run_operations ops scene object point l2 (i + l1.length) (run_operations ops scene object point l1 i buf) := by
  intro l1
  induction l1 with
  | nil =>
    intro l2 i buf
    simp [run_operations]
  | cons op rest ih =>
    intro l2 i buf
    show run_operations ops scene object point (rest ++ l2) (i + 1) _ = _
    rw [ih]
    have h : i + 1 + rest.length = i + (rest.length + 1) := by omega
    rw [h]
    rfl

theorem run_operations_length (ops : FloatOps) (scene : Scene ℚ) (object : Object ℚ)
    (point : Vec2 ℚ) :
    ∀ (l : List Operation) (i : Nat) (buf : List F),
      (run_operations ops scene object point l i buf).length = buf.length := by
  intro l
  induction l with
  | nil =>
    intro i buf
    rfl
  | cons op rest ih =>
    intro i buf
    show (run_operations ops scene object point rest (i + 1) _).length = _
    rw [ih, List.length_set]

/-- When the loop reaches operation `i`, every buffer entry at an index
`≥ i` still holds the quiet NaN the buffer was filled with. -/
theorem results_before_nan (ops : FloatOps) (scene : Scene ℚ) (object : Object ℚ)
    (point : Vec2 ℚ) (i j : Nat) (hij : i ≤ j) (hj : j < object.operations.length) :
    (results_before ops scene object point i)[j]? = some F.nan := by
  unfold results_before
  rw [run_operations_outside ops scene object point _ 0 j _
    (Or.inr (by rw [List.length_take]; omega))]
  exact List.getElem?_replicate_of_lt hj

theorem run_operations_get_general (ops : FloatOps) (scene : Scene ℚ) (object : Object ℚ)
    (point : Vec2 ℚ) (l : List Operation) (i : Nat) (h : i < l.length) (buf : List F)
    (hbuf : l.length ≤ buf.length) :
    (run_operations ops scene object point l 0 buf)[i]? =
      some (apply_operation
        (evaluate_argument ops scene object point (run_operations ops scene object point (l.take i) 0 buf))
        (l[i])) := by
  have hsplit : l = l.take i ++ (l[i] :: l.drop (i + 1)) := by
    rw [← List.drop_eq_getElem_cons h, List.take_append_drop]
  conv =>
    left
    rw [hsplit, run_operations_append]
  rw [show (0 : Nat) + (l.take i).length = i from by rw [List.length_take]; omega]
  show (run_operations ops scene object point (l.drop (i + 1)) (i + 1) _)[i]? = _
  rw [run_operations_outside ops scene object point _ (i + 1) i _ (Or.inl (by omega))]
  refine List.getElem?_set_self ?_
  rw [run_operations_length]
  omega

/-- The buffer entry the loop stores at index `i` is the dispatch of
operation `i` on arguments resolved against the buffer as it stood
when the loop reached `i`. -/
theorem run_operations_get (ops : FloatOps) (scene : Scene ℚ) (object : Object ℚ)
    (point : Vec2 ℚ) (i : Nat) (h : i < object.operations.length) :
    (run_operations ops scene object point object.operations 0
        (List.replicate object.operations.length F.nan))[i]? =
      some (apply_operation
        (evaluate_argument ops scene object point (results_before ops scene object point i))
        (object.operations[i])) := by
  unfold results_before
  exact run_operations_get_general ops scene object point object.operations i h _
    (by rw [List.length_replicate])

end V1

/-! ### Claim theorems for the evaluator -/

/-- Claim C2: during evaluation, the operation at index `i` stores at
its buffer slot `std::min` / `std::max` / negation of its resolved
argument values; consequently, for arbitrary primitives `A`, `B`, an
object whose single operation is a min (resp. max, neg) over them
evaluates to the min (resp. max, negation) of the primitives' values,
and the three-operation object `max(neg A, neg B)` evaluates to the
negation of the one-operation object `min(A, B)` (De Morgan). -/
theorem claim_C2_operations (ops : FloatOps) (scene : Scene ℚ) (object : Object ℚ)
    (point : Vec2 ℚ) (i : Nat) (h : i < object.operations.length) (A B : Primitive ℚ) :
    ((object.operations[i]).kind = .min →
      (V1.run_operations ops scene object point object.operations 0
          (List.replicate object.operations.length F.nan))[i]? =
        some (fmin
          (V1.evaluate_argument ops scene object point
            (V1.results_before ops scene object point i) (object.operations[i]).arg0)
          (V1.evaluate_argument ops scene object point
            (V1.results_before ops scene object point i) (object.operations[i]).arg1))) ∧
    ((object.operations[i]).kind = .max →
      (V1.run_operations ops scene object point object.operations 0
          (List.replicate object.operations.length F.nan))[i]? =
        some (fmax
          (V1.evaluate_argument ops scene object point
            (V1.results_before ops scene object point i) (object.operations[i]).arg0)
          (V1.evaluate_argument ops scene object point
            (V1.results_before ops scene object point i) (object.operations[i]).arg1))) ∧
    ((object.operations[i]).kind = .neg →
      (V1.run_operations ops scene object point object.operations 0
          (List.replicate object.operations.length F.nan))[i]? =
        some ((V1.evaluate_argument ops scene object point
          (V1.results_before ops scene object point i) (object.operations[i]).arg0).fneg)) ∧
    (V1.evaluate ops scene
        ⟨[A, B], [⟨.min, V1.object_primitive_index 0, V1.object_primitive_index 1⟩]⟩ point =
      .fin (min (V1.evaluate_primitive ops A point) (V1.evaluate_primitive ops B point))) ∧
    (V1.evaluate ops scene
        ⟨[A, B], [⟨.max, V1.object_primitive_index 0, V1.object_primitive_index 1⟩]⟩ point =
      .fin (max (V1.evaluate_primitive ops A point) (V1.evaluate_primitive ops B point))) ∧
    (V1.evaluate ops scene
        ⟨[A, B], [⟨.neg, V1.object_primitive_index 0, 0⟩]⟩ point =
      .fin (-(V1.evaluate_primitive ops A point))) ∧
    (V1.evaluate ops scene
        ⟨[A, B], [⟨.neg, V1.object_primitive_index 0, 0⟩,
                  ⟨.neg, V1.object_primitive_index 1, 0⟩,
                  ⟨.max, V1.object_operation_index 0, V1.object_operation_index 1⟩]⟩ point =
      (V1.evaluate ops scene
        ⟨[A, B], [⟨.min, V1.object_primitive_index 0, V1.object_primitive_index 1⟩]⟩ point).fneg) := by
  refine ⟨?_, ?_, ?_, ?_, ?_, ?_, ?_⟩
  · intro hk
    rw [V1.run_operations_get ops scene object point i h]
    simp only [V1.apply_operation, hk]
  · intro hk
    rw [V1.run_operations_get ops scene object point i h]
    simp only [V1.apply_operation, hk]
  · intro hk
    rw [V1.run_operations_get ops scene object point i h]
    simp only [V1.apply_operation, hk]
  · rw [show V1.evaluate ops scene
        ⟨[A, B], [⟨.min, V1.object_primitive_index 0, V1.object_primitive_index 1⟩]⟩ point =
        fmin (.fin (V1.evaluate_primitive ops A point)) (.fin (V1.evaluate_primitive ops B point))
      from rfl, fmin_fin]
  · rw [show V1.evaluate ops scene
        ⟨[A, B], [⟨.max, V1.object_primitive_index 0, V1.object_primitive_index 1⟩]⟩ point =
        fmax (.fin (V1.evaluate_primitive ops A point)) (.fin (V1.evaluate_primitive ops B point))
      from rfl, fmax_fin]
  · rfl
  · rw [show V1.evaluate ops scene
        ⟨[A, B], [⟨.neg, V1.object_primitive_index 0, 0⟩,
                  ⟨.neg, V1.object_primitive_index 1, 0⟩,
                  ⟨.max, V1.object_operation_index 0, V1.object_operation_index 1⟩]⟩ point =
        fmax (.fin (-(V1.evaluate_primitive ops A point))) (.fin (-(V1.evaluate_primitive ops B point)))
      from rfl,
      show V1.evaluate ops scene
        ⟨[A, B], [⟨.min, V1.object_primitive_index 0, V1.object_primitive_index 1⟩]⟩ point =
        fmin (.fin (V1.evaluate_primitive ops A point)) (.fin (V1.evaluate_primitive ops B point))
      from rfl, fmin_fin, fmax_fin]
    show F.fin (max (-(V1.evaluate_primitive ops A point)) (-(V1.evaluate_primitive ops B point))) =
      F.fin (-(min (V1.evaluate_primitive ops A point) (V1.evaluate_primitive ops B point)))
    rw [max_neg_neg]

/-- An object that computes `min` of its two constant primitives,
evaluated concretely through the claim-C2 theorem. -/
theorem claim_C2_operations_witness :
    V1.evaluate zeroOps ⟨[], []⟩
        ⟨[.float1 3, .float1 5],
         [⟨.min, V1.object_primitive_index 0, V1.object_primitive_index 1⟩]⟩ ⟨0, 0⟩ =
      .fin (min (V1.evaluate_primitive zeroOps (.float1 3) ⟨0, 0⟩)
        (V1.evaluate_primitive zeroOps (.float1 5) ⟨0, 0⟩)) :=
  (claim_C2_operations zeroOps ⟨[], []⟩
    ⟨[.float1 3, .float1 5],
     [⟨.min, V1.object_primitive_index 0, V1.object_primitive_index 1⟩]⟩ ⟨0, 0⟩ 0
    (by decide) (.float1 3) (.float1 5)).2.2.2.1

/-- Claim C6: an object with zero operations and zero primitives
evaluates to positive infinity, in both revisions of the evaluator. -/
theorem claim_C6_empty (ops : FloatOps) (scene1 : Scene ℚ) (scene2 : Scene2 ℚ)
    (object : Object ℚ) (point : Vec2 ℚ)
    (h1 : object.operations = []) (h2 : object.primitives = []) :
    V1.evaluate ops scene1 object point = F.inf ∧
    V2.evaluate ops scene2 object point = F.inf := by
  constructor
  · simp [V1.evaluate, h1]
  · simp [V2.evaluate, h1, h2]

/-- The genuinely empty object evaluates to infinity concretely. -/
theorem claim_C6_empty_witness :
    V1.evaluate zeroOps ⟨[], []⟩ ⟨[], []⟩ ⟨0, 0⟩ = F.inf ∧
    V2.evaluate zeroOps ⟨[], [], ⟨1, 1⟩⟩ ⟨[], []⟩ ⟨0, 0⟩ = F.inf :=
  claim_C6_empty zeroOps ⟨[], []⟩ ⟨[], [], ⟨1, 1⟩⟩ ⟨[], []⟩ ⟨0, 0⟩ rfl rfl

/-- Claim C7: in the part_001 evaluator, an object with no operations
but at least one primitive evaluates to the distance of its last
primitive. -/
theorem claim_C7_last_primitive (ops : FloatOps) (scene : Scene2 ℚ) (object : Object ℚ)
    (point : Vec2 ℚ) (h1 : object.operations = []) (h2 : object.primitives ≠ []) :
    V2.evaluate ops scene object point =
      .fin (V2.evaluate_primitive ops scene
        (object.primitives.getLastD default_primitive) point) := by
  have hlen : object.primitives.length ≠ 0 := fun hc => h2 (List.length_eq_zero.mp hc)
  simp [V2.evaluate, h1, hlen]

/-- A two-primitive, zero-operation object evaluates to its last
primitive's value. -/
theorem claim_C7_last_primitive_witness :
    V2.evaluate zeroOps ⟨[], [], ⟨1, 1⟩⟩ ⟨[.float1 3, .float1 9], []⟩ ⟨0, 0⟩ =
      .fin (V2.evaluate_primitive zeroOps ⟨[], [], ⟨1, 1⟩⟩
        (([.float1 3, .float1 9] : List (Primitive ℚ)).getLastD default_primitive) ⟨0, 0⟩) :=
  claim_C7_last_primitive zeroOps ⟨[], [], ⟨1, 1⟩⟩ ⟨[.float1 3, .float1 9], []⟩ ⟨0, 0⟩
    rfl (by simp)

/-- Claim C9: an `object_operation` argument of operation `i` whose
index is a forward or self reference (`i ≤ v < n`) resolves to the
quiet NaN the results buffer was pre-filled with, since slot `v` has
not been overwritten when the loop reaches operation `i`. -/
theorem claim_C9_forward_reference (ops : FloatOps) (scene : Scene ℚ) (object : Object ℚ)
    (point : Vec2 ℚ) (i w : Nat) (h : i < object.operations.length)
    (hkind : V1.arg_kind w = 2) (hge : i ≤ V1.arg_value w)
    (hlt : V1.arg_value w < object.operations.length) :
    V1.evaluate_argument ops scene object point
      (V1.results_before ops scene object point i) w = F.nan := by
  unfold V1.evaluate_argument
  rw [if_neg (by rw [hkind]; norm_num), if_pos hkind]
  rw [List.getD_eq_getElem?_getD,
    V1.results_before_nan ops scene object point i (V1.arg_value w) hge hlt]
  rfl

/-- A single `neg` operation referencing itself resolves its argument
to NaN. -/
theorem claim_C9_forward_reference_witness :
    V1.evaluate_argument zeroOps ⟨[], []⟩
      ⟨[.float1 5], [⟨.neg, V1.object_operation_index 0, 0⟩]⟩ ⟨0, 0⟩
      (V1.results_before zeroOps ⟨[], []⟩
        ⟨[.float1 5], [⟨.neg, V1.object_operation_index 0, 0⟩]⟩ ⟨0, 0⟩ 0)
      (V1.object_operation_index 0) = F.nan :=
  claim_C9_forward_reference zeroOps ⟨[], []⟩
    ⟨[.float1 5], [⟨.neg, V1.object_operation_index 0, 0⟩]⟩ ⟨0, 0⟩ 0
    (V1.object_operation_index 0) (by decide) (by decide) (by decide) (by decide)

/-! ### Claim theorems for the geometry -/

theorem Vec2.add_def (a b : Vec2 ℚ) : a + b = ⟨a.x + b.x, a.y + b.y⟩ := rfl

theorem Vec2.sub_def (a b : Vec2 ℚ) : a - b = ⟨a.x - b.x, a.y - b.y⟩ := rfl

theorem Vec2.mul_def (a b : Vec2 ℚ) : a * b = ⟨a.x * b.x, a.y * b.y⟩ := rfl

/-- Claim C3: the sdfd.hpp plane evaluation is literally
`dot(normal, p) - offset` (for any normal); on the boundary the value
is exactly 0; and the part_001 variant, which reconstructs the plane
from two scaled boundary points, agrees with `dot(n, p) - o` under the
identity scale when the normal has unit length. -/
theorem claim_C3_plane (ops : FloatOps) (scene : Scene2 ℚ) (n : Vec2 ℚ) (o : ℚ)
    (p : Vec2 ℚ) :
    (V1.evaluate_primitive ops (.plane ⟨n, o⟩) p = dot n p - o) ∧
    (dot n p = o → V1.evaluate_primitive ops (.plane ⟨n, o⟩) p = 0) ∧
    (scene.scale = ⟨1, 1⟩ → dot n n = 1 →
      V2.evaluate_primitive ops scene (.plane ⟨n, o⟩) p = dot n p - o) := by
  refine ⟨rfl, ?_, ?_⟩
  · intro hb
    show dot n p - o = 0
    rw [hb, sub_self]
  · intro hs hu
    obtain ⟨nx, ny⟩ := n
    obtain ⟨px, py⟩ := p
    simp only [dot] at hu ⊢
    simp only [V2.evaluate_primitive, hs, Vec2.muls, perp, Vec2.add_def, Vec2.sub_def,
      Vec2.mul_def, dot]
    linear_combination (-o) * hu

/-- The scaled-variant plane agrees with the dot-product formula at a
concrete unit normal. -/
theorem claim_C3_plane_witness :
    V2.evaluate_primitive zeroOps ⟨[], [], ⟨1, 1⟩⟩
        (.plane ⟨⟨3 / 5, 4 / 5⟩, 2⟩) ⟨2, 1⟩ =
      dot ⟨3 / 5, 4 / 5⟩ ⟨2, 1⟩ - 2 :=
  (claim_C3_plane zeroOps ⟨[], [], ⟨1, 1⟩⟩ ⟨3 / 5, 4 / 5⟩ 2 ⟨2, 1⟩).2.2 rfl
    (by norm_num [dot])

/-- Claim C4: the sdfd.hpp circle evaluation is literally
`length(p - center) - radius`, and evaluates to `-radius` at the
center (given `sqrtf 0 = 0`); the part_001 variant routes the circle
through the ellipse distance, which under the identity scale takes the
equal-radii fallback and agrees exactly. -/
theorem claim_C4_circle (ops : FloatOps) (scene : Scene2 ℚ) (c : Vec2 ℚ) (r : ℚ)
    (p : Vec2 ℚ) :
    (V1.evaluate_primitive ops (.circle ⟨c, r⟩) p = length ops (p - c) - r) ∧
    (ops.sqrt 0 = 0 → V1.evaluate_primitive ops (.circle ⟨c, r⟩) c = -r) ∧
    (scene.scale = ⟨1, 1⟩ →
      V2.evaluate_primitive ops scene (.circle ⟨c, r⟩) p = length ops (p - c) - r) ∧
    (scene.scale = ⟨1, 1⟩ → ops.sqrt 0 = 0 →
      V2.evaluate_primitive ops scene (.circle ⟨c, r⟩) c = -r) := by
  have hcenter : ∀ hsq : ops.sqrt 0 = 0, length ops (c - c) - r = -r := by
    intro hsq
    obtain ⟨cx, cy⟩ := c
    simp [length, Vec2.sub_def, hsq]
  have h3 : scene.scale = ⟨1, 1⟩ → ∀ pt,
      V2.evaluate_primitive ops scene (.circle ⟨c, r⟩) pt = length ops (pt - c) - r := by
    intro hs pt
    obtain ⟨cx, cy⟩ := c
    simp [V2.evaluate_primitive, hs, distance_ellipse, Vec2.mul_def, Vec2.muls, Vec2.yx,
      fabs, distance_circle, (show (0 : ℚ) < 1 / 1000000000 from by norm_num)]
  exact ⟨rfl, fun hsq => hcenter hsq, fun hs => h3 hs p, fun hs hsq => by
    rw [h3 hs c]; exact hcenter hsq⟩

/-- Concrete circle: under identity scale the part_001 variant gives
the circle formula, and the center evaluates to `-radius`. -/
theorem claim_C4_circle_witness :
    V2.evaluate_primitive zeroOps ⟨[], [], ⟨1, 1⟩⟩
        (.circle ⟨⟨3, 4⟩, 5⟩) ⟨3, 4⟩ = -5 :=
  (claim_C4_circle zeroOps ⟨[], [], ⟨1, 1⟩⟩ ⟨3, 4⟩ 5 ⟨3, 4⟩).2.2.2 rfl rfl

/-- Claim C5: with exactly equal radii the ellipse distance is the
circle distance with that radius, exactly; and whenever the code's
degenerate-case test `|radius.y² - radius.x²| < 1e-9` holds (with
nonnegative radii), the ellipse distance is within `1e-4` of the
circle distance with radius `radius.x`. -/
theorem claim_C5_ellipse_degenerate (ops : FloatOps) (e : Ellipse ℚ) (p : Vec2 ℚ) :
    (e.radius.x = e.radius.y →
      distance_ellipse ops e p = distance_circle ops ⟨e.center, e.radius.x⟩ p) ∧
    (|e.radius.y * e.radius.y - e.radius.x * e.radius.x| < 1 / 1000000000 →
      0 ≤ e.radius.x → 0 ≤ e.radius.y →
      |distance_ellipse ops e p - distance_circle ops ⟨e.center, e.radius.x⟩ p| <
        1 / 10000) := by
  obtain ⟨ec, ⟨rx, ry⟩⟩ := e
  constructor
  · intro h
    simp only at h
    subst h
    by_cases hcond : (vabs (p - ec)).x > (vabs (p - ec)).y <;>
      simp [distance_ellipse, hcond, Vec2.yx, fabs,
        (show (0 : ℚ) < 1 / 1000000000 from by norm_num)]
  · intro hl hx hy
    simp only at hl hx hy
    have hfall : ∀ rad : ℚ,
        distance_ellipse ops ⟨ec, ⟨rx, ry⟩⟩ p = distance_circle ops ⟨ec, rad⟩ p →
        |distance_ellipse ops ⟨ec, ⟨rx, ry⟩⟩ p - distance_circle ops ⟨ec, rx⟩ p| =
          |rx - rad| := by
      intro rad hrad
      rw [hrad]
      simp only [distance_circle]
      rw [show length ops (p - ec) - rad - (length ops (p - ec) - rx) = rx - rad from by ring]
    have hdiff : |rx - ry| < 1 / 10000 := by
      rw [abs_lt] at hl ⊢
      constructor <;> nlinarith [hl.1, hl.2, hx, hy, mul_self_nonneg (rx - ry)]
    by_cases hcond : (vabs (p - ec)).x > (vabs (p - ec)).y
    · have hc1 : fabs (rx * rx - ry * ry) < 1 / 1000000000 := by
        rw [fabs, abs_sub_comm]
        exact hl
      have hfb : distance_ellipse ops ⟨ec, ⟨rx, ry⟩⟩ p = distance_circle ops ⟨ec, rx⟩ p := by
        unfold distance_ellipse
        simp only [hcond, if_true, reduceIte, Vec2.yx]
        rw [if_pos]
        exact hc1
      rw [hfall rx hfb]
      simp only [sub_self, abs_zero]
      norm_num
    · have hc2 : fabs (ry * ry - rx * rx) < 1 / 1000000000 := by
        rw [fabs]
        exact hl
      have hfb : distance_ellipse ops ⟨ec, ⟨rx, ry⟩⟩ p = distance_circle ops ⟨ec, ry⟩ p := by
        unfold distance_ellipse
        simp only [hcond, if_false, reduceIte]
        rw [if_pos]
        exact hc2
      rw [hfall ry hfb]
      exact hdiff

/-- A circle-shaped ellipse agrees with the circle distance exactly at
a concrete input. -/
theorem claim_C5_ellipse_degenerate_witness :
    distance_ellipse zeroOps ⟨⟨0, 0⟩, ⟨1, 1⟩⟩ ⟨3, 4⟩ =
      distance_circle zeroOps ⟨⟨0, 0⟩, 1⟩ ⟨3, 4⟩ :=
  (claim_C5_ellipse_degenerate zeroOps ⟨⟨0, 0⟩, ⟨1, 1⟩⟩ ⟨3, 4⟩).1 rfl

end Sdfd
